import Mathlib

/-!
Verification of the scoped request-logging recorder (`src/src/log.rs` of the
rouille repository, `LogEntry` / `format_time`).

The embedding models:
* `format_time` (src/src/log.rs lines 81-91), including the exact IEEE-754
  `f64` semantics of `time as f64 / divisor` and of Rust's `{:.1}` float
  formatting (correctly rounded decimal of the double value, ties to even);
* `LogEntry::start` (lines 31-37) and `Drop for LogEntry` (lines 41-78),
  with the sink modelled as the `String` of bytes written so far, the
  panicking flag, and the backtrace modelled as a list of frames, each with
  an instruction pointer and a list of resolved symbols (name / filename
  bytes each optional, line number optional), exactly as the `backtrace`
  crate callbacks deliver them;
* `String::from_utf8` via a strict UTF-8 decoder (no overlongs, no
  surrogates, max U+10FFFF).

Machine integers (`u64` durations, `u32` line numbers) are modelled as `Nat`;
the only subtraction, `now - start_time`, is monotone by assumption
(monotonic clock), stated as a hypothesis where it matters.
-/

namespace Rouille

/-! ### Exact model of the `f64` arithmetic used by `format_time` -/

/-- Round the rational `a / b` (with `b > 0`) to the nearest natural number,
ties to even.  This is the rounding primitive shared by IEEE-754
round-to-nearest-even and by Rust's float-to-decimal formatting. -/
def rdivNE (a b : Nat) : Nat :=
  let q := a / b
  let r := a % b
  if 2 * r < b then q
  else if b < 2 * r then q + 1
  else if q % 2 = 0 then q else q + 1

/-- Fuel-driven binary logarithm, structurally recursive so that the kernel
can evaluate it. -/
def ilog2F : Nat → Nat → Nat
  | 0, _ => 0
  | fuel + 1, n => if n ≤ 1 then 0 else ilog2F fuel (n / 2) + 1

/-- Floor of the base-2 logarithm (`ilog2 0 = 0`). -/
def ilog2 (n : Nat) : Nat := ilog2F n n

/-- The value of `t as f64` for a `u64` value `t`: exact below `2 ^ 53`,
otherwise rounded to 53 significant bits, ties to even.  The result is always
an integer, so it is returned as a `Nat`. -/
def f64ofNat (t : Nat) : Nat :=
  if t < 2 ^ 53 then t
  else
    let e := ilog2 t
    rdivNE t (2 ^ (e - 52)) * 2 ^ (e - 52)

/-- IEEE-754 double division `a / b` for naturals with `1 ≤ a / b`:
the result is the pair `(m, e)` with `2 ^ 52 ≤ m ≤ 2 ^ 53` representing the
double of value `m * 2 ^ e / 2 ^ 52`, obtained by rounding the exact quotient
to 53 significant bits, ties to even. -/
def f64divME (a b : Nat) : Nat × Nat :=
  let e := ilog2 (a / b)
  if e ≤ 52 then (rdivNE (a * 2 ^ (52 - e)) b, e)
  else (rdivNE a (b * 2 ^ (e - 52)), e)

/-- Rust `{:.1}` formatting of the nonnegative double `(m, e)`:
the exact value `m * 2 ^ e / 2 ^ 52` is rounded to one decimal digit, ties to
even, and printed as `<integer part>.<tenths digit>`. -/
def fmtDot1 (me : Nat × Nat) : String :=
  let n :=
    if 52 ≤ me.2 then 10 * me.1 * 2 ^ (me.2 - 52)
    else rdivNE (10 * me.1) (2 ^ (52 - me.2))
  toString (n / 10) ++ "." ++ toString (n % 10)

/-- Rendering of Rust `write!(out, "{:.1}", t as f64 / d as f64)` for a `u64`
duration `t` and divisor `d` with `d ≤ t`. -/
def fdivFmt (t d : Nat) : String := fmtDot1 (f64divME (f64ofNat t) d)

/-- Model of `format_time` (src/src/log.rs lines 81-91): render a nanosecond duration,
choosing the bracket by half-open thresholds exactly as the chain of `if`s in
the source does. -/
def format_time (time : Nat) : String :=
  if time < 1000 then toString time ++ "ns"
  else if time < 1000000 then fdivFmt time 1000 ++ "us"
  else if time < 1000000000 then fdivFmt time 1000000 ++ "ms"
  else fdivFmt time 1000000000 ++ "s"

/-! ### Strict UTF-8 decoding (model of Rust `String::from_utf8`) -/

/-- Whether a byte is a UTF-8 continuation byte (`0x80 ..= 0xBF`). -/
def contOK (b : Nat) : Bool := decide (0x80 ≤ b) && decide (b ≤ 0xBF)

/-- Strict UTF-8 decoding of a byte sequence, rejecting overlong encodings,
surrogates and code points above `U+10FFFF`, exactly as Rust's
`String::from_utf8` does; `none` models the `Err` case. -/
def utf8DecodeChars : List Nat → Option (List Char)
  | [] => some []
  | b :: bs =>
    if b < 0x80 then
      (utf8DecodeChars bs).map (fun cs => Char.ofNat b :: cs)
    else if b < 0xC2 then none
    else if b < 0xE0 then
      match bs with
      | b1 :: bs1 =>
        if contOK b1 then
          (utf8DecodeChars bs1).map
            (fun cs => Char.ofNat ((b - 0xC0) * 64 + (b1 - 0x80)) :: cs)
        else none
      | [] => none
    else if b < 0xF0 then
      match bs with
      | b1 :: b2 :: bs2 =>
        if (if b = 0xE0 then decide (0xA0 ≤ b1) && decide (b1 ≤ 0xBF)
            else if b = 0xED then decide (0x80 ≤ b1) && decide (b1 ≤ 0x9F)
            else contOK b1) && contOK b2 then
          (utf8DecodeChars bs2).map
            (fun cs =>
              Char.ofNat ((b - 0xE0) * 4096 + (b1 - 0x80) * 64 + (b2 - 0x80)) :: cs)
        else none
      | _ => none
    else if b < 0xF5 then
      match bs with
      | b1 :: b2 :: b3 :: bs3 =>
        if (if b = 0xF0 then decide (0x90 ≤ b1) && decide (b1 ≤ 0xBF)
            else if b = 0xF4 then decide (0x80 ≤ b1) && decide (b1 ≤ 0x8F)
            else contOK b1) && contOK b2 && contOK b3 then
          (utf8DecodeChars bs3).map
            (fun cs =>
              Char.ofNat
                ((b - 0xF0) * 262144 + (b1 - 0x80) * 4096 + (b2 - 0x80) * 64
                  + (b3 - 0x80)) :: cs)
        else none
      | _ => none
    else none

/-- Model of Rust `String::from_utf8`. -/
def utf8Decode (l : List Nat) : Option String := (utf8DecodeChars l).map String.mk

/-! ### The `LogEntry` guard -/

/-- Modelled from the spec: the work-unit descriptor (`Request`, defined
elsewhere in the repository, outside `src/`).  Per the spec it minimally
exposes a method name and a target identifier; `url` is the target returned
by the `rq.url()` accessor used in `src/src/log.rs`. -/
structure Request where
  method : String
  url : String

/-- Model of `LogEntry` (src/src/log.rs lines 23-27).  The owned sink `output : W` is
modelled by the string of bytes it currently holds. -/
structure LogEntry where
  line : String
  output : String
  start_time : Nat

/-- Model of `LogEntry::start` (src/src/log.rs lines 31-37).  `now` is the value the
monotonic clock `time::precise_time_ns()` returns at construction.  Note the
source builds the line as `format!("GET {}", rq.url())` — the literal `"GET"`
(marked `// TODO:` in the source), not the request's method. -/
def LogEntry.start (output : String) (rq : Request) (now : Nat) : LogEntry :=
  { line := "GET " ++ rq.url, output := output, start_time := now }

/-- One symbol resolved for a frame address, as the `backtrace` crate hands it
to the `resolve` callback: optional raw name bytes, optional raw filename
bytes, optional line number. -/
structure Symbol where
  name : Option (List Nat)
  filename : Option (List Nat)
  lineno : Option Nat

/-- One walked stack frame: its instruction pointer and the list of symbols
`backtrace::resolve` reports for it (possibly empty). -/
structure Frame where
  ip : Nat
  symbols : List Symbol

/-- The byte string `b"<unknown>"` used as the fallback for absent name and
filename bytes (src/src/log.rs lines 55 and 60). -/
def unknownBytes : List Nat := [60, 117, 110, 107, 110, 111, 119, 110, 62]

/-- Model of `String::from_utf8(bytes).unwrap_or_else(|_| "<not-utf8>".to_owned())`. -/
def decodeField (bytes : List Nat) : String :=
  match utf8Decode bytes with
  | some s => s
  | none => "<not-utf8>"

/-- The `name` string computed for a symbol (src/src/log.rs lines 54-57). -/
def symName (s : Symbol) : String := decodeField (s.name.getD unknownBytes)

/-- The `filename` string computed for a symbol (src/src/log.rs lines 58-61). -/
def symFilename (s : Symbol) : String := decodeField (s.filename.getD unknownBytes)

/-- The `line` string computed for a symbol (src/src/log.rs lines 62-63). -/
def symLineno (s : Symbol) : String :=
  match s.lineno with
  | some l => toString l
  | none => "??"

/-- Rust `{:p}` rendering of an address: `0x` followed by lowercase hex. -/
def fmtPtr (ip : Nat) : String := "0x" ++ String.mk (Nat.toDigits 16 ip)

/-- Rust `{:>#4}` rendering of the frame counter: right-aligned in a field of
width 4, padded with spaces. -/
def padFrameNum (n : Nat) : String :=
  let s := toString n
  String.mk (List.replicate (4 - s.length) ' ') ++ s

/-- The two output lines the `writeln!` at src/src/log.rs lines 65-66 emits
for one resolved symbol: format string
`"{:>#4} - {:p} - {}\n       {}:{}"` plus the terminating line break. -/
def symbolLine (num ip : Nat) (s : Symbol) : String :=
  padFrameNum num ++ " - " ++ fmtPtr ip ++ " - " ++ symName s ++ "\n       " ++
    symFilename s ++ ":" ++ symLineno s ++ "\n"

/-- Everything the `backtrace::resolve` callback (src/src/log.rs lines 53-67)
writes for one frame: one `symbolLine` per resolved symbol, in order. -/
def renderSymbols (num ip : Nat) : List Symbol → String
  | [] => ""
  | s :: ss => symbolLine num ip s ++ renderSymbols num ip ss

/-- The backtrace walk (src/src/log.rs lines 47-70): `n` is the current value
of `frame_num`, incremented once per frame before `backtrace::resolve` runs,
and every symbol of the frame is printed with the incremented value. -/
def renderFrames : Nat → List Frame → String
  | _, [] => ""
  | n, f :: fs => renderSymbols (n + 1) f.ip f.symbols ++ renderFrames (n + 1) fs

/-- The frame numbers that actually reach the output, in output order: one
entry per walked frame that resolved at least one symbol (a frame's number is
repeated inside its own block when it has several symbols, so per-frame
numbers are exactly the distinct numbers in output order).  `n` is the value
of `frame_num` when the walk reaches the list. -/
def printedNums : Nat → List Frame → List Nat
  | _, [] => []
  | n, f :: fs => (if f.symbols.isEmpty then [] else [n + 1]) ++ printedNums (n + 1) fs

/-- The bytes `Drop for LogEntry::drop` (src/src/log.rs lines 41-78) appends
to the sink: the prefix write, then either the panic branch (marker plus
backtrace walk) or the normal branch (formatted elapsed time), then the final
`writeln!(self.output, "")`.  `panicking` is the result of
`thread::panicking()`, `frames` the walked backtrace, `now` the clock value at
drop time. -/
def dropWritten (e : LogEntry) (panicking : Bool) (frames : List Frame)
    (now : Nat) : String :=
  e.line ++ " - " ++
    (if panicking then " - PANIC!\n" ++ renderFrames 0 frames
     else format_time (now - e.start_time)) ++
    "\n"

/-- The sink contents after the drop glue ran: everything the sink already
held, followed by the bytes the drop appends. -/
def LogEntry.drop (e : LogEntry) (panicking : Bool) (frames : List Frame)
    (now : Nat) : String :=
  e.output ++ dropWritten e panicking frames now

/-! ### Scope semantics (RAII) -/

/-- Modelled from the spec: how the scope that owns the guard can end — the
drop glue itself is Rust language semantics, not code under `src/`.  Per the
spec: normal completion, early return, or an abnormal unwind triggered
partway through the body. -/
inductive ScopeExit where
  | normal
  | earlyReturn (after : Nat)
  | unwind (after : Nat)

/-- Modelled from the spec: an observable event of a scope execution — either
one unit of the caller's work, or the guard's cleanup action together with
the bytes it writes. -/
inductive Event where
  | work (step : Nat)
  | cleanup (written : String)

/-- Whether an event is the cleanup action. -/
def Event.isCleanup : Event → Bool
  | .cleanup _ => true
  | .work _ => false

/-- Modelled from the spec: executing a scope of `steps` work units that owns
the guard `e`.  On normal completion all work runs; an early return or an
unwind after `k` steps runs `min k steps` of them.  In every case Rust runs
the drop glue exactly at scope exit, with `thread::panicking()` true exactly
on the unwind path. -/
def runScope (e : LogEntry) (steps : Nat) (exit : ScopeExit)
    (frames : List Frame) (now : Nat) : List Event :=
  match exit with
  | .normal =>
      ((List.range steps).map .work) ++ [.cleanup (dropWritten e false frames now)]
  | .earlyReturn k =>
      ((List.range (min k steps)).map .work) ++
        [.cleanup (dropWritten e false frames now)]
  | .unwind k =>
      ((List.range (min k steps)).map .work) ++
        [.cleanup (dropWritten e true frames now)]

/-! ### Helper lemmas -/

lemma renderFrames_eq_enumFrom (fs : List Frame) (n : Nat) :
    renderFrames n fs =
      ((fs.enumFrom n).map fun p => renderSymbols (p.1 + 1) p.2.ip p.2.symbols).foldr
        (· ++ ·) "" := by
  induction fs generalizing n with
  | nil => rfl
  | cons f fs ih =>
    simp only [renderFrames, List.enumFrom_cons, List.map_cons, List.foldr_cons, ih]

lemma printedNums_eq_enumFrom (fs : List Frame) (n : Nat) :
    printedNums n fs =
      ((fs.enumFrom n).filter fun p => !p.2.symbols.isEmpty).map fun p => p.1 + 1 := by
  induction fs generalizing n with
  | nil => rfl
  | cons f fs ih =>
    simp only [printedNums, List.enumFrom_cons, List.filter_cons]
    cases h : f.symbols.isEmpty <;> simp [h, ih]

lemma printedNums_gt (fs : List Frame) (n m : Nat) (hm : m ∈ printedNums n fs) :
    n < m := by
  induction fs generalizing n with
  | nil => simp [printedNums] at hm
  | cons f fs ih =>
    simp only [printedNums, List.mem_append] at hm
    rcases hm with hm | hm
    · cases hE : f.symbols.isEmpty <;> simp [hE] at hm
      omega
    · have := ih (n + 1) hm
      omega

lemma printedNums_pairwise (fs : List Frame) (n : Nat) :
    (printedNums n fs).Pairwise (· < ·) := by
  induction fs generalizing n with
  | nil => simp [printedNums]
  | cons f fs ih =>
    simp only [printedNums]
    cases hE : f.symbols.isEmpty
    · simp only [hE, Bool.false_eq_true, if_false, List.singleton_append,
        List.pairwise_cons]
      exact ⟨fun m hm => printedNums_gt fs (n + 1) m hm, ih (n + 1)⟩
    · simpa [hE] using ih (n + 1)

lemma append_ends_nl {a b : String} (ha : a = "" ∨ ∃ s, a = s ++ "\n")
    (hb : b = "" ∨ ∃ s, b = s ++ "\n") :
    a ++ b = "" ∨ ∃ s, a ++ b = s ++ "\n" := by
  rcases hb with rfl | ⟨s, rfl⟩
  · simpa [String.append_empty] using ha
  · exact Or.inr ⟨a ++ s, (String.append_assoc a s "\n").symm⟩

lemma renderSymbols_ends (num ip : Nat) (ss : List Symbol) :
    renderSymbols num ip ss = "" ∨ ∃ s, renderSymbols num ip ss = s ++ "\n" := by
  induction ss with
  | nil => exact Or.inl rfl
  | cons s ss ih => exact append_ends_nl (Or.inr ⟨_, rfl⟩) ih

lemma renderFrames_ends (n : Nat) (fs : List Frame) :
    renderFrames n fs = "" ∨ ∃ s, renderFrames n fs = s ++ "\n" := by
  induction fs generalizing n with
  | nil => exact Or.inl rfl
  | cons f fs ih => exact append_ends_nl (renderSymbols_ends _ _ _) (ih _)

lemma str_ns_split : ("ns" : String) = "n" ++ "s" := rfl

lemma str_us_split : ("us" : String) = "u" ++ "s" := rfl

lemma str_ms_split : ("ms" : String) = "m" ++ "s" := rfl

lemma format_time_ends_s (t : Nat) : ∃ u, format_time t = u ++ "s" := by
  unfold format_time
  split
  · exact ⟨toString t ++ "n", by rw [str_ns_split, String.append_assoc]⟩
  · split
    · exact ⟨fdivFmt t 1000 ++ "u", by rw [str_us_split, String.append_assoc]⟩
    · split
      · exact ⟨fdivFmt t 1000000 ++ "m", by rw [str_ms_split, String.append_assoc]⟩
      · exact ⟨fdivFmt t 1000000000, rfl⟩

lemma countP_work_map (l : List Nat) :
    (l.map Event.work).countP Event.isCleanup = 0 := by
  induction l with
  | nil => rfl
  | cons a l ih => simp [List.countP_cons, Event.isCleanup, ih]

/-! ### Claims -/

/-- C1 (counterexample): for the recorder built with method `GET`, target
`/hello`, whose scope exits normally with elapsed time 0, the bytes the drop
appends are `GET /hello - 0ns\n` — a single ` - ` separator and a single
trailing line break — and NOT the claimed
`GET /hello -  - <dur><unit>\n\n` (double separator, double line break). -/
theorem scenarioA_claimed_bytes_false :
    ((dropWritten (LogEntry.start "" ⟨"GET", "/hello"⟩ 0) false [] 0) ==
        "GET /hello -  - " ++ format_time 0 ++ "\n\n") = false ∧
    dropWritten (LogEntry.start "" ⟨"GET", "/hello"⟩ 0) false [] 0 =
      "GET /hello - 0ns\n" := by
  decide

/-- C1 (amended): for a recorder constructed with method `GET` and target
`/hello` whose scope exits normally, the bytes the cleanup action appends to
the sink match exactly `GET /hello - <dur><unit>\n`, where `<dur><unit>` is
the duration formatter's rendering of the elapsed nanoseconds. -/
theorem scenarioA_normal_output (sink : String) (start now : Nat)
    (frames : List Frame) (_h : start ≤ now) :
    dropWritten (LogEntry.start sink ⟨"GET", "/hello"⟩ start) false frames now =
      "GET /hello - " ++ format_time (now - start) ++ "\n" := by
  have h0 : dropWritten (LogEntry.start sink ⟨"GET", "/hello"⟩ start) false frames now =
      ("GET " ++ "/hello") ++ " - " ++ format_time (now - start) ++ "\n" := rfl
  rw [h0]
  rfl

/-- Witness for C1 (amended) at sink `""`, `start_time` 0, drop time 5. -/
theorem scenarioA_normal_output_witness :
    (0 : Nat) ≤ 5 ∧
    dropWritten (LogEntry.start "" ⟨"GET", "/hello"⟩ 0) false [] 5 =
      "GET /hello - 5ns\n" :=
  ⟨by decide, (scenarioA_normal_output "" 0 5 [] (by decide)).trans (by decide)⟩

/-- C2 (code evaluated at the failing input): `LogEntry::start` hardcodes the
method `GET` in the line prefix (the `// TODO:` at src/src/log.rs line 33), so
a request with method `POST` and target `/x` yields the prefix `GET /x`, not
the claimed `POST /x`; the start time is captured as claimed. -/
theorem start_line_ignores_method (output : String) (now : Nat) :
    (LogEntry.start output ⟨"POST", "/x"⟩ now).line = "GET /x" ∧
    ((LogEntry.start output ⟨"POST", "/x"⟩ now).line == "POST /x") = false ∧
    (LogEntry.start output ⟨"POST", "/x"⟩ now).start_time = now :=
  ⟨rfl, rfl, rfl⟩

/-- C3: `format_time` picks its bracket by half-open thresholds — below 1000
integer nanoseconds with suffix `ns`; `[1000, 10^6)` the `f64` quotient by
1000 to one decimal with suffix `us`; `[10^6, 10^9)` the quotient by `10^6`
with suffix `ms`; at or above `10^9` the quotient by `10^9` with suffix `s` —
with the spec's examples, and every boundary value in the upper bracket. -/
theorem format_time_bracket_selection :
    (∀ d, d < 1000 → format_time d = toString d ++ "ns") ∧
    (∀ d, 1000 ≤ d → d < 1000000 → format_time d = fdivFmt d 1000 ++ "us") ∧
    (∀ d, 1000000 ≤ d → d < 1000000000 →
      format_time d = fdivFmt d 1000000 ++ "ms") ∧
    (∀ d, 1000000000 ≤ d → format_time d = fdivFmt d 1000000000 ++ "s") ∧
    format_time 999 = "999ns" ∧ format_time 1000 = "1.0us" ∧
    format_time 1500000 = "1.5ms" ∧ format_time 2000000000 = "2.0s" ∧
    format_time 1000000 = "1.0ms" ∧ format_time 1000000000 = "1.0s" := by
  refine ⟨?_, ?_, ?_, ?_, by decide, by decide, by decide, by decide,
    by decide, by decide⟩
  · intro d h
    simp [format_time, h]
  · intro d h1 h2
    unfold format_time
    rw [if_neg (by omega), if_pos h2]
  · intro d h1 h2
    unfold format_time
    rw [if_neg (by omega), if_neg (by omega), if_pos h2]
  · intro d h1
    unfold format_time
    rw [if_neg (by omega), if_neg (by omega), if_neg (by omega)]

/-- Witness for C3: one concrete instantiation per bracket. -/
theorem format_time_bracket_selection_witness :
    format_time 500 = toString 500 ++ "ns" ∧
    format_time 2000 = fdivFmt 2000 1000 ++ "us" ∧
    format_time 3000000 = fdivFmt 3000000 1000000 ++ "ms" ∧
    format_time 5000000000 = fdivFmt 5000000000 1000000000 ++ "s" :=
  ⟨format_time_bracket_selection.1 500 (by decide),
   format_time_bracket_selection.2.1 2000 (by decide) (by decide),
   format_time_bracket_selection.2.2.1 3000000 (by decide) (by decide),
   format_time_bracket_selection.2.2.2.1 5000000000 (by decide)⟩

/-- C4 (counterexample): on the normal path the cleanup's final line break
does NOT leave an empty line — with elapsed 0 the appended entry is
`GET /hello - 0ns\n`, whose last two bytes are not two line breaks (while the
abnormal path of the same recorder does end with two line breaks). -/
theorem normal_path_no_blank_line :
    ((dropWritten (LogEntry.start "" ⟨"GET", "/hello"⟩ 0) false [] 0).data.reverse.take 2 ==
        ['\n', '\n']) = false ∧
    ((dropWritten (LogEntry.start "" ⟨"GET", "/hello"⟩ 0) true [] 0).data.reverse.take 2 ==
        ['\n', '\n']) = true ∧
    dropWritten (LogEntry.start "" ⟨"GET", "/hello"⟩ 0) false [] 0 =
      "GET /hello - 0ns\n" := by
  decide

/-- C4 (amended): on both paths the last write of the cleanup action is one
line break; on the abnormal path it leaves an empty line (the entry ends with
two line breaks), while on the normal path it merely terminates the duration
line (the entry ends with the unit suffix `s` followed by one line break, so
no empty separator line is left). -/
theorem drop_final_newline (e : LogEntry) (frames : List Frame) (now : Nat) :
    (∃ s, dropWritten e false frames now = s ++ "\n") ∧
    (∃ s, dropWritten e true frames now = s ++ "\n") ∧
    (∃ s, dropWritten e true frames now = s ++ "\n\n") ∧
    (∃ s, dropWritten e false frames now = s ++ "s\n") := by
  have h0 : dropWritten e true frames now =
      (e.line ++ " - ") ++ (" - PANIC!\n" ++ renderFrames 0 frames) ++ "\n" := rfl
  have h1 : dropWritten e false frames now =
      (e.line ++ " - ") ++ format_time (now - e.start_time) ++ "\n" := rfl
  have e2 : ("\n\n" : String) = "\n" ++ "\n" := rfl
  have e3 : ("s\n" : String) = "s" ++ "\n" := rfl
  refine ⟨⟨e.line ++ " - " ++ format_time (now - e.start_time), rfl⟩,
    ⟨e.line ++ " - " ++ (" - PANIC!\n" ++ renderFrames 0 frames), rfl⟩, ?_, ?_⟩
  · rcases renderFrames_ends 0 frames with hr | ⟨s, hs⟩
    · refine ⟨e.line ++ " - " ++ " - PANIC!", ?_⟩
      rw [h0, hr, String.append_empty, e2,
        show (" - PANIC!\n" : String) = " - PANIC!" ++ "\n" from rfl]
      simp only [String.append_assoc]
    · refine ⟨e.line ++ " - " ++ (" - PANIC!\n" ++ s), ?_⟩
      rw [h0, hs, e2]
      simp only [String.append_assoc]
  · obtain ⟨u, hu⟩ := format_time_ends_s (now - e.start_time)
    refine ⟨e.line ++ " - " ++ u, ?_⟩
    rw [h1, hu, e3]
    simp only [String.append_assoc]

/-- C5: the cleanup action runs exactly once per recorder — never zero times
and never twice — whether the owning scope ends by normal completion, early
return, or an abnormal unwind started anywhere inside the scope. -/
theorem cleanup_runs_exactly_once (e : LogEntry) (steps : Nat) (ex : ScopeExit)
    (frames : List Frame) (now : Nat) :
    ((runScope e steps ex frames now).countP Event.isCleanup) = 1 := by
  cases ex <;>
    simp [runScope, List.countP_append, countP_work_map, List.countP_cons,
      Event.isCleanup]

/-- C6: when cleanup runs while the thread is unwinding, it writes
` - PANIC!` and a line break after the prefix, then walks the whole frame
list with frame numbers starting at 1 (frame at 0-based index `i` gets number
`i + 1`), writing for each resolved symbol the two lines of `symbolLine`:
`<frame_number> - <address> - <symbol_name>`, a line break, seven spaces,
`<filename>:<line_number>`, and a line break — as the concrete conjunct
shows. -/
theorem panic_output_format (e : LogEntry) (frames : List Frame) (now : Nat) :
    dropWritten e true frames now =
      e.line ++ " - " ++ (" - PANIC!\n" ++
        ((frames.enumFrom 0).map
          (fun p => renderSymbols (p.1 + 1) p.2.ip p.2.symbols)).foldr
            (· ++ ·) "") ++ "\n" ∧
    symbolLine 1 3735928559 ⟨some [72, 105], some [97, 46, 114, 115], some 42⟩ =
      "   1 - 0xdeadbeef - Hi\n       a.rs:42\n" := by
  constructor
  · have h0 : dropWritten e true frames now =
        e.line ++ " - " ++ (" - PANIC!\n" ++ renderFrames 0 frames) ++ "\n" := rfl
    rw [h0, renderFrames_eq_enumFrom]
  · decide

/-- C7: during the abnormal-path stack walk, a missing symbol name or
filename is replaced by `<unknown>`, name or filename bytes that are not
valid UTF-8 are replaced by `<not-utf8>`, a missing line number is replaced
by `??`, and a symbol with every field missing still produces its two full
output lines with the sentinels filled in (the walk never fails). -/
theorem resolution_sentinels :
    (∀ fn ln, symName ⟨none, fn, ln⟩ = "<unknown>") ∧
    (∀ nm ln, symFilename ⟨nm, none, ln⟩ = "<unknown>") ∧
    (∀ bs fn ln, utf8Decode bs = none → symName ⟨some bs, fn, ln⟩ = "<not-utf8>") ∧
    (∀ nm bs ln, utf8Decode bs = none →
      symFilename ⟨nm, some bs, ln⟩ = "<not-utf8>") ∧
    (∀ nm fn, symLineno ⟨nm, fn, none⟩ = "??") ∧
    (∀ num ip, symbolLine num ip ⟨none, none, none⟩ =
      padFrameNum num ++ " - " ++ fmtPtr ip ++ " - " ++ "<unknown>" ++
        "\n       " ++ "<unknown>" ++ ":" ++ "??" ++ "\n") := by
  refine ⟨fun fn ln => rfl, fun nm ln => rfl, ?_, ?_, fun nm fn => rfl,
    fun num ip => rfl⟩
  · intro bs fn ln h
    simp only [symName, Option.getD_some]
    simp [decodeField, h]
  · intro nm bs ln h
    simp only [symFilename, Option.getD_some]
    simp [decodeField, h]

/-- Witness for C7: the sentinels at concrete symbols — absent fields and the
invalid byte sequences `[0xFF]` and `[0x80]`. -/
theorem resolution_sentinels_witness :
    symName ⟨some [255], none, none⟩ = "<not-utf8>" ∧
    symFilename ⟨none, some [128], none⟩ = "<not-utf8>" ∧
    symName ⟨none, none, none⟩ = "<unknown>" ∧
    symFilename ⟨none, none, none⟩ = "<unknown>" ∧
    symLineno ⟨none, none, none⟩ = "??" :=
  ⟨resolution_sentinels.2.2.1 [255] none none (by decide),
   resolution_sentinels.2.2.2.1 none [128] none (by decide),
   resolution_sentinels.1 none none,
   resolution_sentinels.2.1 none none,
   resolution_sentinels.2.2.2.2.1 none none⟩

/-- C8: constructing a recorder performs no I/O — the sink's contents right
after `LogEntry::start` equal its contents right before, and every write
happens in the drop: the final sink contents are the initial ones with only
the drop's bytes appended. -/
theorem start_writes_nothing (output : String) (rq : Request) (now : Nat) :
    (LogEntry.start output rq now).output = output ∧
    ∀ (panicking : Bool) (frames : List Frame) (t : Nat),
      LogEntry.drop (LogEntry.start output rq now) panicking frames t =
        output ++ dropWritten (LogEntry.start output rq now) panicking frames t :=
  ⟨rfl, fun _ _ _ => rfl⟩

/-- C9: the frame counter is incremented once per walked frame before symbol
resolution (the frame at 0-based index `i` carries number `i + 1` even when
it resolves zero symbols, as `printedNums_eq_enumFrom` states), so the
per-frame numbers that actually appear in the output are strictly increasing
but need not be consecutive: a frame with no resolvable symbol consumes a
number that is never printed, as the concrete walk shows (numbers 1 and 3
appear, number 2 is consumed by the symbol-less frame and skipped). -/
theorem frame_numbers_increasing (fs : List Frame) :
    printedNums 0 fs =
      ((fs.enumFrom 0).filter fun p => !p.2.symbols.isEmpty).map
        (fun p => p.1 + 1) ∧
    (printedNums 0 fs).Pairwise (· < ·) ∧
    printedNums 0
        [⟨10, [⟨none, none, none⟩]⟩, ⟨11, []⟩, ⟨12, [⟨none, none, none⟩]⟩] =
      [1, 3] ∧
    renderFrames 0
        [⟨10, [⟨none, none, none⟩]⟩, ⟨11, []⟩, ⟨12, [⟨none, none, none⟩]⟩] =
      symbolLine 1 10 ⟨none, none, none⟩ ++ symbolLine 3 12 ⟨none, none, none⟩ :=
  ⟨printedNums_eq_enumFrom fs 0, printedNums_pairwise fs 0, by decide, by decide⟩

/-- C10: inside the microsecond bracket, every duration from 999,950 ns to
999,999 ns renders as `1000.0us` (not `1.0ms`): the quotient by 1000 rounds
to one decimal as 1000.0 while bracket selection still sees a value below
`10^6`; likewise durations just under `10^9` ns render as `1000.0ms`, and
999,949 ns still renders as `999.9us`. -/
theorem format_time_boundary_rounding :
    (∀ d, 999950 ≤ d → d ≤ 999999 → format_time d = "1000.0us") ∧
    format_time 999949 = "999.9us" ∧
    format_time 999950000 = "1000.0ms" ∧
    format_time 999999999 = "1000.0ms" := by
  refine ⟨?_, by decide, by decide, by decide⟩
  intro d h1 h2
  have key : ∀ k, k < 50 → format_time (999950 + k) = "1000.0us" := by decide
  have hd : d = 999950 + (d - 999950) := by omega
  rw [hd]
  exact key (d - 999950) (by omega)

/-- Witness for C10 at 999,975 ns. -/
theorem format_time_boundary_rounding_witness :
    format_time 999975 = "1000.0us" :=
  format_time_boundary_rounding.1 999975 (by decide) (by decide)

end Rouille
